import Mathlib

/-
Shallow embedding of the executor package (client/executor/exec.go) of the
nomad repository.

The package provides:
 * a process-wide registry of `ExecutorFactory` values and a selection
   function `Default()` that returns the first registered executor whose
   `Available()` is true, falling back to a fresh `UniversalExecutor`;
 * the `UniversalExecutor` implementation, whose state is the embedded
   `cmd` struct (an `exec.Cmd` extended with `Resources` and `RunAs`);
 * the package-level `Command(name, arg...)` constructor mirroring
   `exec.Command`.

Host-OS interactions (`exec.LookPath`, `os.FindProcess`, `os.Process.Kill`)
are modelled as explicit function parameters; properties the Go standard
library guarantees about them (for example that `os.FindProcess(pid)`
returns a process whose `Pid` field equals `pid`) appear as hypotheses of
the theorems that need them.
-/

namespace ExecPkg

/-- Modelled from the spec: `structs.Resources` lives outside this repository
(only its pointer type is mentioned by exec.go).  The spec describes it as an
advisory Resource Spec with cpu-limit, memory-limit and other throttles.  No
operation in this package reads any of its fields. -/
structure Resources where
  CPU : Int := 0
  MemoryMB : Int := 0
  DiskMB : Int := 0
deriving Repr, DecidableEq

/-- The part of `os.Process` this package uses: its `Pid` field.
A Go `*os.Process` is modelled as `Option Proc`, with `none` for `nil`. -/
structure Proc where
  Pid : Int
deriving Repr, DecidableEq

/-- The `cmd` struct of exec.go: an embedded `exec.Cmd` (of which this package
touches only `Path`, `Args` and `Process`) extended with `Resources` and
`RunAs`.  Zero values of the omitted `exec.Cmd` fields are never read or
written by the package, so they are not modelled. -/
structure Cmd where
  Path : String := ""
  Args : List String := []
  Process : Option Proc := none
  Resources : Resources := {}
  RunAs : String := ""
deriving Repr, DecidableEq

/-- `UniversalExecutor` embeds `cmd` and nothing else. -/
structure UniversalExecutor where
  cmd : Cmd := {}
deriving Repr, DecidableEq

/-- The result of running a Go statement that can panic: either a normal
return value, or a runtime panic (here only the nil-pointer dereference
arising from calling a method on a nil `*os.Process`). -/
inductive GoResult (α : Type) where
  | nilPanic : GoResult α
  | ok : α → GoResult α
deriving Repr, DecidableEq

/-- `func (e *UniversalExecutor) Available() bool { return true }` -/
def UniversalExecutor.Available (_e : UniversalExecutor) : Bool :=
  true

/-- `func (e *UniversalExecutor) Limit(resources *structs.Resources) error`:
the body is `return nil` — a no-op.  The Go method returns only an error;
since the receiver is a pointer, the model returns the (unchanged) receiver
state alongside the error, with `none` standing for a nil error. -/
def UniversalExecutor.Limit (e : UniversalExecutor) (_resources : Option Resources) :
    Option String × UniversalExecutor :=
  (none, e)

/-- `func (e *UniversalExecutor) RunAs(userid string) error`: the body is
`return nil` — a no-op. -/
def UniversalExecutor.RunAs (e : UniversalExecutor) (_userid : String) :
    Option String × UniversalExecutor :=
  (none, e)

/-- `func (e *UniversalExecutor) Open(pid int) error`: calls
`os.FindProcess(pid)`; on error returns
`fmt.Errorf("Failed to reopen pid %d: %s", pid, err)`, otherwise stores the
process in `e.Process` and returns nil.  `findProcess` is the host's
`os.FindProcess`. -/
def UniversalExecutor.Open (findProcess : Int → Except String Proc)
    (e : UniversalExecutor) (pid : Int) : Option String × UniversalExecutor :=
  match findProcess pid with
  | .error msg =>
      (some ("Failed to reopen pid " ++ toString pid ++ ": " ++ msg), e)
  | .ok process =>
      (none, { e with cmd := { e.cmd with Process := some process } })

/-- `func (e *UniversalExecutor) Pid() (int, error)`: returns
`(e.cmd.Process.Pid, nil)` when `e.cmd.Process != nil`, else
`(0, fmt.Errorf("Process has finished or was never started"))`. -/
def UniversalExecutor.Pid (e : UniversalExecutor) : Int × Option String :=
  match e.cmd.Process with
  | some p => (p.Pid, none)
  | none => (0, some "Process has finished or was never started")

/-- `func (e *UniversalExecutor) ForceStop() error { return e.Process.Kill() }`:
there is no nil check, and `os.Process.Kill` reads fields of its receiver, so
when `e.Process` is nil the call dereferences a nil pointer and panics —
modelled by `GoResult.nilPanic`.  `kill` is the host's `os.Process.Kill` on a
live (non-nil) process, returning `none` for a nil error. -/
def UniversalExecutor.ForceStop (kill : Proc → Option String)
    (e : UniversalExecutor) : GoResult (Option String) :=
  match e.cmd.Process with
  | none => .nilPanic
  | some p => .ok (kill p)

/-- `func (e *UniversalExecutor) Shutdown() error { return e.ForceStop() }` -/
def UniversalExecutor.Shutdown (kill : Proc → Option String)
    (e : UniversalExecutor) : GoResult (Option String) :=
  e.ForceStop kill

/-- The value an `Executor`-typed variable holds after selection: either an
instance produced by a registered factory (of the platform-specific type `α`),
or the `&UniversalExecutor{}` fallback. -/
inductive Selected (α : Type) where
  | fromFactory : α → Selected α
  | fallback : UniversalExecutor → Selected α

/-- `Available()` of a selected executor: for a factory-produced instance the
platform implementation's `avail`, for the fallback the
`UniversalExecutor.Available` method. -/
def Selected.available (avail : α → Bool) : Selected α → Bool
  | .fromFactory e => avail e
  | .fallback u => u.Available

/-- `func Default() Executor`: iterates the registered factories in order,
invokes each, and returns the first produced instance whose `Available()` is
true; if none is available (or the list is empty) it returns a fresh
`&UniversalExecutor{}`.  The registry slice `executors` is the list argument;
a registered factory is a function producing a platform executor of type `α`
with availability test `avail`. -/
def Default (avail : α → Bool) : List (Unit → α) → Selected α
  | [] => .fallback {}
  | f :: rest =>
      let executor := f ()
      if avail executor then .fromFactory executor else Default avail rest

/-- `filepath.Base` (path/filepath, Unix separator '/') on a list of
characters: empty path gives ".", then trailing separators are stripped, the
element after the last separator is returned, and an all-separator path gives
"/". -/
def baseList (path : List Char) : List Char :=
  if path = [] then ['.']
  else
    let r := path.reverse.dropWhile (fun c => c = '/')
    if r = [] then ['/']
    else (r.takeWhile (fun c => c ≠ '/')).reverse

/-- `filepath.Base` on strings. -/
def filepathBase (path : String) : String :=
  String.mk (baseList path.data)

/-- `func Command(name string, arg ...string) Executor`: sets
`cmd.Path = name` and `cmd.Args = append([]string{name}, arg...)` on the
selected executor's `cmd` struct `c0`; when `filepath.Base(name) == name` it
consults `exec.LookPath` (parameter `lookPath`) and on success overwrites
`Path` with the result, while a lookup error is discarded (the assignment
`cmd.lookPathErr = err` is commented out in the source). -/
def Command (lookPath : String → Except String String) (c0 : Cmd)
    (name : String) (args : List String) : Cmd :=
  let c1 := { c0 with Path := name, Args := name :: args }
  if filepathBase name = name then
    match lookPath name with
    | .error _ => c1
    | .ok lp => { c1 with Path := lp }
  else c1

/-- Whether a string contains the Unix path separator; formalises "name
contains a directory component". -/
def hasSep (s : String) : Bool :=
  decide ('/' ∈ s.data)

/-- Whether an `Except` is a success. -/
def exceptOk : Except ε α → Bool
  | .ok _ => true
  | .error _ => false

/-- Helper: on a nonempty path with no separator, `filepath.Base` is the
identity. -/
theorem baseList_of_not_mem (cs : List Char) (hne : cs ≠ []) (hnm : '/' ∉ cs) :
    baseList cs = cs := by
  have hrevne : cs.reverse ≠ [] := by
    simpa using hne
  have hrev : cs.reverse.dropWhile (fun c => decide (c = '/')) = cs.reverse := by
    cases h : cs.reverse with
    | nil => simp
    | cons a t =>
        have ha : a ∈ cs := List.mem_reverse.mp (h ▸ List.mem_cons_self a t)
        have hne' : a ≠ '/' := fun hEq => hnm (hEq ▸ ha)
        simp [List.dropWhile_cons, hne']
  have htake : cs.reverse.takeWhile (fun c => decide ¬(c = '/')) = cs.reverse := by
    rw [List.takeWhile_eq_self_iff]
    intro x hx
    have hxc : x ∈ cs := List.mem_reverse.mp hx
    have hxne : x ≠ '/' := fun hEq => hnm (hEq ▸ hxc)
    simp [hxne]
  unfold baseList
  rw [if_neg hne, hrev, if_neg hrevne, htake, List.reverse_reverse]

/-- Helper: a nonempty string without the separator is its own
`filepath.Base`. -/
theorem filepathBase_of_no_sep (name : String) (hnil : name ≠ "")
    (hns : hasSep name = false) : filepathBase name = name := by
  have hmem : '/' ∉ name.data := by simpa [hasSep] using hns
  have hdata : name.data ≠ [] := by
    intro hd
    exact hnil (String.ext (by simpa using hd))
  unfold filepathBase
  rw [baseList_of_not_mem name.data hdata hmem]

/-- Helper: the `Path` field `Command` produces, as a single conditional. -/
theorem Command_Path_cases (lookPath : String → Except String String)
    (c0 : Cmd) (name : String) (args : List String) :
    (Command lookPath c0 name args).Path =
      (if filepathBase name = name then
        match lookPath name with
        | .ok lp => lp
        | .error _ => name
      else name) := by
  simp only [Command]
  by_cases hb : filepathBase name = name
  · rw [if_pos hb, if_pos hb]
    cases lookPath name <;> rfl
  · rw [if_neg hb, if_neg hb]

/-- Helper: `Command` always sets `Args` to the command name followed by the
argument list. -/
theorem Command_Args (lookPath : String → Except String String)
    (c0 : Cmd) (name : String) (args : List String) :
    (Command lookPath c0 name args).Args = name :: args := by
  simp only [Command]
  by_cases hb : filepathBase name = name
  · rw [if_pos hb]
    cases lookPath name <;> rfl
  · rw [if_neg hb]

/-- C1: `Default()` invokes the registered factories in registration order and
returns the instance produced by the first factory whose `Available()` is
true; with every factory before position k unavailable and factory k
available, the instance of factory k is returned, so no later factory's
instance is returned while an earlier one reports true. -/
theorem Default_first_available {α : Type} (avail : α → Bool)
    (pre : List (Unit → α)) (f : Unit → α) (post : List (Unit → α))
    (hpre : ∀ g ∈ pre, avail (g ()) = false)
    (hf : avail (f ()) = true) :
    Default avail (pre ++ f :: post) = Selected.fromFactory (f ()) := by
  induction pre with
  | nil => simp [Default, hf]
  | cons g gs ih =>
      have hg : avail (g ()) = false := hpre g (List.mem_cons_self g gs)
      simp only [List.cons_append, Default, hg]
      simp only [Bool.false_eq_true, if_false]
      exact ih (fun x hx => hpre x (List.mem_cons_of_mem g hx))

/-- Witness for C1: with two factories, the first unavailable and the second
available, `Default` returns the second factory's instance. -/
theorem Default_first_available_witness :
    Default (fun b => b) ([fun _ => false] ++ (fun _ => true) :: []) =
      Selected.fromFactory true := by
  apply Default_first_available (fun b => b) [fun _ => false] (fun _ => true) []
  · intro g hg
    have hgeq : g = fun _ => false := by simpa using hg
    rw [hgeq]
  · rfl

/-- C2: on a registry that is empty or whose factories all produce unavailable
instances, `Default()` returns a fresh fallback `UniversalExecutor` (never a
failure), and that instance's own `Available()` is true. -/
theorem Default_fallback_available {α : Type} (avail : α → Bool)
    (fs : List (Unit → α)) (h : ∀ g ∈ fs, avail (g ()) = false) :
    Default avail fs = Selected.fallback {} ∧
      Selected.available avail (Default avail fs) = true := by
  have hd : Default avail fs = Selected.fallback {} := by
    induction fs with
    | nil => rfl
    | cons g gs ih =>
        have hg : avail (g ()) = false := h g (List.mem_cons_self g gs)
        simp only [Default, hg]
        simp only [Bool.false_eq_true, if_false]
        exact ih (fun x hx => h x (List.mem_cons_of_mem g hx))
  exact ⟨hd, by rw [hd]; rfl⟩

/-- Witness for C2: a one-factory registry whose instance is unavailable makes
`Default` return the fallback, whose `Available()` is true. -/
theorem Default_fallback_available_witness :
    Default (fun b => b) [fun _ => false] = Selected.fallback {} ∧
      Selected.available (fun b => b) (Default (fun b => b) [fun _ => false]) =
        true := by
  apply Default_fallback_available
  intro g hg
  have hgeq : g = fun _ => false := by simpa using hg
  rw [hgeq]

/-- C3: on a freshly constructed fallback executor (`&UniversalExecutor{}`,
where neither `Start` nor `Open` has run), `Pid()` returns the
not-started error rather than a pid. -/
theorem Pid_fresh_not_started :
    UniversalExecutor.Pid {} =
      (0, some "Process has finished or was never started") := rfl

/-- C4: when the host's process lookup (`os.FindProcess`) cannot resolve the
pid to a live process it observes — modelled as `findProcess pid` returning
an error — `Open(pid)` on the fallback executor returns a lookup error and
leaves the executor unchanged; it does not succeed. -/
theorem Open_absent_pid_fails (findProcess : Int → Except String Proc)
    (e : UniversalExecutor) (pid : Int) (msg : String)
    (h : findProcess pid = .error msg) :
    (UniversalExecutor.Open findProcess e pid).1 =
        some ("Failed to reopen pid " ++ toString pid ++ ": " ++ msg) ∧
      (UniversalExecutor.Open findProcess e pid).2 = e := by
  rw [UniversalExecutor.Open, h]
  exact ⟨rfl, rfl⟩

/-- Witness for C4: a host lookup that knows no process makes `Open 42` fail
with the lookup error. -/
theorem Open_absent_pid_fails_witness :
    (UniversalExecutor.Open (fun _ => .error "no such process") {} 42).1 =
        some ("Failed to reopen pid " ++ toString (42 : Int) ++ ": " ++
          "no such process") ∧
      (UniversalExecutor.Open (fun _ => .error "no such process")
          ({} : UniversalExecutor) 42).2 = {} :=
  Open_absent_pid_fails (fun _ => .error "no such process") {} 42
    "no such process" rfl

/-- C5: on the fallback executor, `Shutdown()` is the same operation as
`ForceStop()`: for every executor state and host kill behaviour it produces
the identical result (including the identical panic behaviour), and neither
operation writes any executor state. -/
theorem Shutdown_eq_ForceStop (kill : Proc → Option String)
    (e : UniversalExecutor) :
    UniversalExecutor.Shutdown kill e = UniversalExecutor.ForceStop kill e :=
  rfl

/-- C6 counterexample: on a freshly constructed fallback executor (no
`Start`/`Open` succeeded, so `Process` is nil), `Shutdown()` — which calls
`ForceStop()`, i.e. `e.Process.Kill()` with no nil check — dereferences a nil
`*os.Process` and panics instead of returning a typed error. -/
theorem Shutdown_fresh_nil_deref :
    UniversalExecutor.Shutdown (fun _ => none) {} = GoResult.nilPanic := rfl

/-- C6 amended: `Pid`, `Shutdown` and `ForceStop` on the fallback executor
return a value or a typed error — and never panic — in every state in which a
process handle is attached (after `Start`/`Open` succeeded); before that,
`Pid` still fails with a typed error, but `Shutdown`/`ForceStop` dereference
the nil process handle and panic. -/
theorem stop_ops_after_attach_no_panic (kill : Proc → Option String)
    (e : UniversalExecutor) (p : Proc) (h : e.cmd.Process = some p) :
    UniversalExecutor.ForceStop kill e = GoResult.ok (kill p) ∧
      UniversalExecutor.Shutdown kill e = GoResult.ok (kill p) ∧
      UniversalExecutor.Pid e = (p.Pid, none) := by
  refine ⟨?_, ?_, ?_⟩ <;>
    simp [UniversalExecutor.ForceStop, UniversalExecutor.Shutdown,
      UniversalExecutor.Pid, h]

/-- Witness for the amended C6: with a process handle attached, `ForceStop`,
`Shutdown` and `Pid` all return normally. -/
theorem stop_ops_after_attach_no_panic_witness :
    UniversalExecutor.ForceStop (fun _ => none)
        { cmd := { Process := some ⟨7⟩ } } = GoResult.ok none ∧
      UniversalExecutor.Shutdown (fun _ => none)
          { cmd := { Process := some ⟨7⟩ } } = GoResult.ok none ∧
      UniversalExecutor.Pid { cmd := { Process := some ⟨7⟩ } } = (7, none) :=
  stop_ops_after_attach_no_panic (fun _ => none)
    { cmd := { Process := some ⟨7⟩ } } ⟨7⟩ rfl

/-- C7: on the fallback executor, `Limit` and `RunAs` return no error on every
input and leave the whole executor state — command path, arguments, process,
recorded resources and identity — unchanged; they are pure no-ops. -/
theorem Limit_RunAs_noop (e : UniversalExecutor) (r : Option Resources)
    (s : String) :
    UniversalExecutor.Limit e r = (none, e) ∧
      UniversalExecutor.RunAs e s = (none, e) :=
  ⟨rfl, rfl⟩

/-- C8: when the host lookup resolves `pid` to a live process — which
`os.FindProcess` returns with its `Pid` field equal to the argument — a
successful `Open(pid)` followed by `Pid()` returns that same pid with no
error. -/
theorem Open_then_Pid_roundtrip (findProcess : Int → Except String Proc)
    (e : UniversalExecutor) (pid : Int) (p : Proc)
    (hfind : findProcess pid = .ok p) (hpid : p.Pid = pid) :
    (UniversalExecutor.Open findProcess e pid).1 = none ∧
      UniversalExecutor.Pid (UniversalExecutor.Open findProcess e pid).2 =
        (pid, none) := by
  rw [UniversalExecutor.Open, hfind]
  exact ⟨rfl, by simp [UniversalExecutor.Pid, hpid]⟩

/-- Witness for C8: opening pid 7 against a host lookup that resolves every
pid gives back pid 7 from `Pid()`. -/
theorem Open_then_Pid_roundtrip_witness :
    (UniversalExecutor.Open (fun n => .ok ⟨n⟩) {} 7).1 = none ∧
      UniversalExecutor.Pid
          (UniversalExecutor.Open (fun n => .ok ⟨n⟩)
            ({} : UniversalExecutor) 7).2 = (7, none) :=
  Open_then_Pid_roundtrip (fun n => .ok ⟨n⟩) {} 7 ⟨7⟩ rfl rfl

/-- C9: `Command(name, args...)` sets the handle's `Args` to `name` followed
by the argument list; when `name` contains no directory component
(no separator), `Path` becomes the search-path resolution of `name` when the
resolution succeeds and stays `name` otherwise; when `name` contains a
directory component, `Path` stays `name`.  The two hypotheses state facts of
`exec.LookPath`: looking up the empty string fails, and a successful lookup
of a string containing a separator returns that string itself. -/
theorem Command_sets_args_and_path (lookPath : String → Except String String)
    (hempty : exceptOk (lookPath "") = false)
    (hslash : ∀ s r, hasSep s = true → lookPath s = .ok r → r = s)
    (c0 : Cmd) (name : String) (args : List String) :
    (Command lookPath c0 name args).Args = name :: args ∧
      (hasSep name = false →
        (Command lookPath c0 name args).Path =
          match lookPath name with
          | .ok lp => lp
          | .error _ => name) ∧
      (hasSep name = true → (Command lookPath c0 name args).Path = name) := by
  refine ⟨Command_Args lookPath c0 name args, ?_, ?_⟩
  · intro hns
    rw [Command_Path_cases]
    by_cases hnil : name = ""
    · subst hnil
      rw [if_neg (by decide : ¬ filepathBase "" = "")]
      cases hlp : lookPath "" with
      | ok lp => rw [hlp] at hempty; simp [exceptOk] at hempty
      | error msg => rfl
    · rw [if_pos (filepathBase_of_no_sep name hnil hns)]
  · intro hs
    rw [Command_Path_cases]
    by_cases hbase : filepathBase name = name
    · rw [if_pos hbase]
      cases hlp : lookPath name with
      | ok lp => exact hslash name lp hs hlp
      | error msg => rfl
    · rw [if_neg hbase]

/-- Witness for C9: with a host lookup that resolves every nonempty name to
itself, `Command "ls" ["-l"]` produces `Args = ["ls", "-l"]` and the resolved
`Path = "ls"`. -/
theorem Command_sets_args_and_path_witness :
    (Command (fun s => if s = "" then .error "empty" else .ok s) {} "ls"
        ["-l"]).Args = ["ls", "-l"] ∧
      (Command (fun s => if s = "" then .error "empty" else .ok s)
          ({} : Cmd) "ls" ["-l"]).Path = "ls" := by
  have hempty :
      exceptOk ((fun s => if s = "" then (Except.error "empty" : Except String String) else .ok s) "") = false := by
    simp [exceptOk]
  have hslash : ∀ s r, hasSep s = true →
      (fun s => if s = "" then (Except.error "empty" : Except String String) else .ok s) s = .ok r → r = s := by
    intro s r _ hok
    by_cases hsnil : s = ""
    · simp [hsnil] at hok
    · simp [hsnil] at hok
      exact hok.symm
  have h := Command_sets_args_and_path
    (fun s => if s = "" then .error "empty" else .ok s) hempty hslash
    {} "ls" ["-l"]
  refine ⟨h.1, ?_⟩
  have hb := h.2.1 (by decide)
  simpa using hb

/-- C10: when `Command` is given a bare name (no directory component) whose
search-path resolution fails, the lookup error is silently discarded: the
result is exactly the handle with `Path` left equal to the bare name and
`Args` set, and `Command` is total — it returns an executor with no error
indication. -/
theorem Command_discards_lookup_failure
    (lookPath : String → Except String String) (c0 : Cmd) (name : String)
    (args : List String) (msg : String) (hns : hasSep name = false)
    (hfail : lookPath name = .error msg) :
    Command lookPath c0 name args =
      { c0 with Path := name, Args := name :: args } := by
  simp only [Command]
  by_cases hnil : name = ""
  · subst hnil
    rw [if_neg (by decide : ¬ filepathBase "" = "")]
  · rw [if_pos (filepathBase_of_no_sep name hnil hns), hfail]

/-- Witness for C10: a host lookup that fails on everything leaves
`Command "ls" []` with `Path = "ls"` and the failure discarded. -/
theorem Command_discards_lookup_failure_witness :
    Command (fun _ => .error "executable file not found") {} "ls" [] =
      { ({} : Cmd) with Path := "ls", Args := ["ls"] } :=
  Command_discards_lookup_failure (fun _ => .error "executable file not found")
    {} "ls" [] "executable file not found" (by decide) rfl

end ExecPkg
